import Mathlib

/-!
# Verification of `coupled_laplace_problem.cc`

A shallow embedding of the repository-original logic of the coupled Laplace
tutorial program: the preCICE/deal.II adapter's format conversion, the
boundary-data map handling, the driver's call sequence, the grid/boundary-id
setup in `make_grid`, and the configuration constants.

Values held in deal.II vectors and in the preCICE data arrays are only ever
copied by the repository code (never computed with), so they are modelled by
integers; a deal.II `Vector` is modelled as a total function from global dof
index to value, and the preCICE flat arrays as Lean lists.
-/

namespace CoupledLaplace

/-- The `CouplingParamters` struct (source lines 35-42): five constant
configuration strings, fixed by in-class initializers. -/
structure CouplingParamters where
  config_file : String
  participant_name : String
  mesh_name : String
  write_data_name : String
  read_data_name : String

/-- The values the in-class initializers give every `CouplingParamters`
instance; `LaplaceProblem` default-constructs its `parameters` member, so this
is the one parameter object of the program. -/
def defaultParameters : CouplingParamters :=
  { config_file := "precice-config.xml"
    participant_name := "laplace-solver"
    mesh_name := "original-mesh"
    write_data_name := "dummy"
    read_data_name := "boundary-data" }

/-- `Adapter::format_deal_to_precice` (source lines 394-413): iterating
`coupling_dofs` in increasing-index order (the order of a deal.II `IndexSet`
iterator), set `write_data[i] := deal_to_precice[coupling_dofs[i]]` for
`i ∈ [0, n_interface_nodes)`.  The result is the new `write_data` array. -/
def format_deal_to_precice (coupling_dofs : List Nat) (n_interface_nodes : Nat)
    (deal_to_precice : Nat → Int) : List Int :=
  (List.range n_interface_nodes).map fun i => deal_to_precice (coupling_dofs.getD i 0)

/-- `Adapter::format_precice_to_deal` (source lines 417-430): iterating
`coupling_dofs` in the same increasing-index order, set
`precice_to_deal[coupling_dofs[i]] := read_data[i]` for
`i ∈ [0, n_interface_nodes)`.  The result is the updated deal.II vector. -/
def format_precice_to_deal (coupling_dofs : List Nat) (n_interface_nodes : Nat)
    (read_data : List Int) (precice_to_deal : Nat → Int) : Nat → Int :=
  (List.range n_interface_nodes).foldl
    (fun v i => Function.update v (coupling_dofs.getD i 0) (read_data.getD i 0)) precice_to_deal

lemma format_deal_to_precice_length (cd : List Nat) (n : Nat) (v : Nat → Int) :
    (format_deal_to_precice cd n v).length = n := by
  simp [format_deal_to_precice]

lemma format_deal_to_precice_getD (cd : List Nat) (n : Nat) (v : Nat → Int)
    (i : Nat) (hi : i < n) :
    (format_deal_to_precice cd n v).getD i 0 = v (cd.getD i 0) := by
  have hlen : (format_deal_to_precice cd n v).length = n :=
    format_deal_to_precice_length cd n v
  rw [List.getD_eq_getElem _ _ (by rw [hlen]; exact hi)]
  simp [format_deal_to_precice]

lemma format_precice_to_deal_zero (cd : List Nat) (rd : List Int) (v : Nat → Int) :
    format_precice_to_deal cd 0 rd v = v := rfl

lemma format_precice_to_deal_succ (cd : List Nat) (n : Nat) (rd : List Int) (v : Nat → Int) :
    format_precice_to_deal cd (n + 1) rd v =
      Function.update (format_precice_to_deal cd n rd v) (cd.getD n 0) (rd.getD n 0) := by
  unfold format_precice_to_deal
  rw [List.range_succ, List.foldl_append]
  rfl

/-- The value written at the `j`-th coupling dof survives to the end of the
loop when the first `n` enumerated dofs are pairwise distinct. -/
lemma format_precice_to_deal_at_key (cd : List Nat) (rd : List Int) (v : Nat → Int)
    (n : Nat)
    (hinj : ∀ j1 j2, j1 < n → j2 < n → j1 ≠ j2 → cd.getD j1 0 ≠ cd.getD j2 0) :
    ∀ j, j < n → format_precice_to_deal cd n rd v (cd.getD j 0) = rd.getD j 0 := by
  induction n with
  | zero => intro j hj; omega
  | succ n ih =>
    intro j hj
    rw [format_precice_to_deal_succ]
    rcases Nat.lt_succ_iff_lt_or_eq.mp hj with hjn | hjn
    · have hne : cd.getD j 0 ≠ cd.getD n 0 :=
        hinj j n (Nat.lt_succ_of_lt hjn) (Nat.lt_succ_self n) (Nat.ne_of_lt hjn)
      rw [Function.update_noteq hne]
      exact ih (fun j1 j2 h1 h2 => hinj j1 j2 (Nat.lt_succ_of_lt h1) (Nat.lt_succ_of_lt h2)) j hjn
    · subst hjn
      rw [Function.update_same]

/-- When every iteration writes the value `v` already holds at its key, the
loop restores `v` at every enumerated key (no distinctness needed: duplicate
writes rewrite the same value). -/
lemma format_precice_to_deal_roundtrip_aux (cd : List Nat) (rd : List Int) (v w : Nat → Int)
    (n : Nat) (hrd : ∀ i, i < n → rd.getD i 0 = v (cd.getD i 0)) :
    ∀ j, j < n → format_precice_to_deal cd n rd w (cd.getD j 0) = v (cd.getD j 0) := by
  induction n with
  | zero => intro j hj; omega
  | succ n ih =>
    intro j hj
    rw [format_precice_to_deal_succ]
    by_cases hkey : cd.getD j 0 = cd.getD n 0
    · rw [hkey, Function.update_same, hrd n (Nat.lt_succ_self n)]
    · rw [Function.update_noteq hkey]
      have hjn : j < n := by
        rcases Nat.lt_succ_iff_lt_or_eq.mp hj with h | h
        · exact h
        · exact absurd (by rw [h]) hkey
      exact ih (fun i hi => hrd i (Nat.lt_succ_of_lt hi)) j hjn

/-- Entries whose index is never enumerated are untouched by the loop. -/
lemma format_precice_to_deal_frame (cd : List Nat) (rd : List Int) (v : Nat → Int)
    (n : Nat) (d : Nat) (hd : ∀ j, j < n → cd.getD j 0 ≠ d) :
    format_precice_to_deal cd n rd v d = v d := by
  induction n with
  | zero => rfl
  | succ n ih =>
    rw [format_precice_to_deal_succ,
      Function.update_noteq (Ne.symm (hd n (Nat.lt_succ_self n)))]
    exact ih fun j hj => hd j (Nat.lt_succ_of_lt hj)

/-- A `Nodup` list enumerates pairwise distinct values. -/
lemma nodup_getD_ne (cd : List Nat) (hnd : cd.Nodup) :
    ∀ j1 j2, j1 < cd.length → j2 < cd.length → j1 ≠ j2 → cd.getD j1 0 ≠ cd.getD j2 0 := by
  intro j1 j2 h1 h2 hne
  rw [List.getD_eq_getElem _ _ h1, List.getD_eq_getElem _ _ h2]
  intro heq
  exact hne (List.Nodup.getElem_inj_iff hnd |>.mp heq)

/-- C1: the Adapter's format conversion is a pure index-order remapping:
`format_deal_to_precice` sets `write_data[i] = deal_to_precice[coupling_dofs[i]]`
for every `i < n_interface_nodes`, `format_precice_to_deal` sets
`precice_to_deal[coupling_dofs[i]] = read_data[i]` for the same enumeration,
and the round trip (feeding the produced `write_data` back as `read_data`)
restores the deal.II vector at every coupling dof.  `n_interface_nodes` is
`coupling_dofs.n_elements()` as set by `Adapter::initialize`, and the
`IndexSet` enumeration is duplicate-free (`hnd`). -/
theorem c1_format_conversion_roundtrip (cd : List Nat) (hnd : cd.Nodup)
    (rd : List Int) (_hrd : rd.length = cd.length) (v w : Nat → Int) :
    (∀ i, i < cd.length →
      (format_deal_to_precice cd cd.length v).getD i 0 = v (cd.getD i 0)) ∧
    (∀ i, i < cd.length →
      format_precice_to_deal cd cd.length rd w (cd.getD i 0) = rd.getD i 0) ∧
    (∀ d, d ∈ cd →
      format_precice_to_deal cd cd.length (format_deal_to_precice cd cd.length v) w d = v d) := by
  refine ⟨fun i hi => format_deal_to_precice_getD cd cd.length v i hi, ?_, ?_⟩
  · exact fun i hi =>
      format_precice_to_deal_at_key cd rd w cd.length (nodup_getD_ne cd hnd) i hi
  · intro d hd
    obtain ⟨j, hj, hdj⟩ := List.getElem_of_mem hd
    have hdj2 : cd.getD j 0 = d := by rw [List.getD_eq_getElem _ _ hj]; exact hdj
    rw [← hdj2]
    exact format_precice_to_deal_roundtrip_aux cd _ v w cd.length
      (fun i hi => format_deal_to_precice_getD cd cd.length v i hi) j hj

/-- Witness for C1 at `coupling_dofs = [3, 0, 7]`, `read_data = [10, 20, 30]`,
`v = fun d => d + 1`, `w = fun d => 0`. -/
theorem c1_format_conversion_roundtrip_witness :
    format_precice_to_deal [3, 0, 7] 3
      (format_deal_to_precice [3, 0, 7] 3 (fun d => (d : Int) + 1)) (fun _ => 0) 7 = 8 := by
  have h := c1_format_conversion_roundtrip [3, 0, 7] (by decide) [10, 20, 30] (by decide)
    (fun d => (d : Int) + 1) (fun _ => 0)
  have h7 := h.2.2 7 (by decide)
  simpa using h7

/-- The state of the `Adapter` class (source lines 51-185): the three
configuration strings copied from the parameter object, the interface boundary
id, the preCICE-assigned ids (all initialized to `-1`), the coupling dof
`IndexSet` (modelled as its increasing enumeration), and the three flat data
containers.  `precice::SolverInterface` itself is external state and not part
of the model. -/
structure AdapterState where
  mesh_name : String
  read_data_name : String
  write_data_name : String
  deal_boundary_interface_id : Nat
  mesh_id : Int
  read_data_id : Int
  write_data_id : Int
  n_interface_nodes : Int
  coupling_dofs : List Nat
  interface_nodes_ids : List Int
  read_data : List Int
  write_data : List Int

/-- The `Adapter` constructor (source lines 189-201): stores the boundary id
and copies the three name strings from the parameter object; the ids keep
their in-class initializer `-1` and the containers start empty. -/
def AdapterState.ofParameters (p : CouplingParamters) (boundary_interface_id : Nat) :
    AdapterState :=
  { mesh_name := p.mesh_name
    read_data_name := p.read_data_name
    write_data_name := p.write_data_name
    deal_boundary_interface_id := boundary_interface_id
    mesh_id := -1
    read_data_id := -1
    write_data_id := -1
    n_interface_nodes := -1
    coupling_dofs := []
    interface_nodes_ids := []
    read_data := []
    write_data := [] }

/-- `format_deal_to_precice` as the member function: it stores the converted
array in the member `write_data` and changes nothing else. -/
def AdapterState.write_format (a : AdapterState) (deal_to_precice : Nat → Int) :
    AdapterState :=
  { a with write_data :=
      format_deal_to_precice a.coupling_dofs a.n_interface_nodes.toNat deal_to_precice }

/-- `format_precice_to_deal` as the member function: it is `const` in the
source, so the call returns the adapter state unchanged together with the
updated deal.II vector. -/
def AdapterState.read_format_call (a : AdapterState) (precice_to_deal : Nat → Int) :
    AdapterState × (Nat → Int) :=
  (a, format_precice_to_deal a.coupling_dofs a.n_interface_nodes.toNat
        a.read_data precice_to_deal)

/-- C4: every field of `CouplingParamters` is a constant fixed at construction
(`config_file = "precice-config.xml"`, `participant_name = "laplace-solver"`,
`mesh_name = "original-mesh"`, `write_data_name = "dummy"`,
`read_data_name = "boundary-data"`); the Adapter constructor copies the name
strings verbatim, and the modelled state-changing operations of the program
never alter any of these strings. -/
theorem c4_configuration_strings_constant :
    defaultParameters.config_file = "precice-config.xml" ∧
    defaultParameters.participant_name = "laplace-solver" ∧
    defaultParameters.mesh_name = "original-mesh" ∧
    defaultParameters.write_data_name = "dummy" ∧
    defaultParameters.read_data_name = "boundary-data" ∧
    (∀ p : CouplingParamters, ∀ bid : Nat,
      (AdapterState.ofParameters p bid).mesh_name = p.mesh_name ∧
      (AdapterState.ofParameters p bid).read_data_name = p.read_data_name ∧
      (AdapterState.ofParameters p bid).write_data_name = p.write_data_name) ∧
    (∀ a : AdapterState, ∀ v : Nat → Int,
      (a.write_format v).mesh_name = a.mesh_name ∧
      (a.write_format v).read_data_name = a.read_data_name ∧
      (a.write_format v).write_data_name = a.write_data_name ∧
      ((a.read_format_call v).1.mesh_name = a.mesh_name ∧
       (a.read_format_call v).1.read_data_name = a.read_data_name ∧
       (a.read_format_call v).1.write_data_name = a.write_data_name)) := by
  refine ⟨rfl, rfl, rfl, rfl, rfl, fun p bid => ⟨rfl, rfl, rfl⟩,
    fun a v => ⟨rfl, rfl, rfl, rfl, rfl, rfl⟩⟩

/-- C8: `format_precice_to_deal` modifies only the entries of the output
vector whose global index is among the first `n_interface_nodes` elements of
`coupling_dofs`; every other entry keeps the value the input vector had, and
the adapter state itself (read_data, write_data, coupling_dofs, and all ids)
is returned unchanged. -/
theorem c8_read_format_frame (a : AdapterState) (v : Nat → Int) (d : Nat)
    (hn : a.n_interface_nodes.toNat ≤ a.coupling_dofs.length)
    (hd : d ∉ a.coupling_dofs.take a.n_interface_nodes.toNat) :
    (a.read_format_call v).1 = a ∧ (a.read_format_call v).2 d = v d := by
  refine ⟨rfl, ?_⟩
  apply format_precice_to_deal_frame
  intro j hj heq
  apply hd
  rw [← heq, List.getD_eq_getElem _ _ (Nat.lt_of_lt_of_le hj hn),
    List.getElem_take' a.coupling_dofs (Nat.lt_of_lt_of_le hj hn) hj]
  exact List.getElem_mem _

/-- Witness for C8: a concrete adapter with `coupling_dofs = [0, 2]`,
`n_interface_nodes = 2`, `read_data = [5, 7]`; index 1 is not a coupling dof
and keeps its value. -/
theorem c8_read_format_frame_witness :
    ({ AdapterState.ofParameters defaultParameters 1 with
        coupling_dofs := [0, 2], n_interface_nodes := 2,
        read_data := [5, 7] }.read_format_call (fun _ => 9)).2 1 = 9 :=
  (c8_read_format_frame
    { AdapterState.ofParameters defaultParameters 1 with
        coupling_dofs := [0, 2], n_interface_nodes := 2, read_data := [5, 7] }
    (fun _ => 9) 1 (by decide) (by decide)).2

/-! ## The boundary-data map

`std::map<types::global_dof_index, double>` is modelled as an association list
sorted strictly by key.  `std::map::insert` does not overwrite an existing
entry; `operator[]` on an existing key only assigns the mapped value. -/

/-- Keys strictly increase along the list (the `std::map` ordering invariant). -/
def SortedKeys (m : List (Nat × Int)) : Prop :=
  List.Pairwise (fun a b => a.1 < b.1) m

/-- `std::map::insert({k, x})`: position by key order, keep an existing entry. -/
def mapInsert (k : Nat) (x : Int) : List (Nat × Int) → List (Nat × Int)
  | [] => [(k, x)]
  | (k0, v0) :: t =>
    if k < k0 then (k, x) :: (k0, v0) :: t
    else if k = k0 then (k0, v0) :: t
    else (k0, v0) :: mapInsert k x t

/-- `map.find(k)` / presence of key `k`. -/
def dataLookup (k : Nat) : List (Nat × Int) → Option Int
  | [] => none
  | (k0, v0) :: t => if k = k0 then some v0 else dataLookup k t

/-- The insertion loop of `Adapter::initialize` (source lines 245-246):
`for (auto i : coupling_dofs) data.insert({i, 0});`. -/
def dataInsertAll (coupling_dofs : List Nat) (data : List (Nat × Int)) :
    List (Nat × Int) :=
  coupling_dofs.foldl (fun m i => mapInsert i 0 m) data

/-- The read-back loop of `Adapter::advance` (and of `initialize`, source
lines 329-335 and 380-386): an iterator starts at `data.begin()` and for
`i ∈ [0, n_interface_nodes)` executes `data[it->first] = read_data[i]; ++it;`,
i.e. the values of the first `n` entries of `data` are replaced in order by
the first `n` entries of `read_data`. -/
def dataUpdateLoop : List (Nat × Int) → List Int → Nat → List (Nat × Int)
  | m, _, 0 => m
  | [], _, _ + 1 => []
  | (k, v) :: t, rd, n + 1 => (k, rd.headD v) :: dataUpdateLoop t rd.tail n

lemma mapInsert_mem (k : Nat) (x : Int) (m : List (Nat × Int)) :
    ∀ p, p ∈ mapInsert k x m → p = (k, x) ∨ p ∈ m := by
  induction m with
  | nil => intro p hp; simp [mapInsert] at hp; exact Or.inl hp
  | cons q t ih =>
    intro p hp
    obtain ⟨k0, v0⟩ := q
    unfold mapInsert at hp
    split_ifs at hp with h1 h2
    · rcases List.mem_cons.mp hp with h | h
      · exact Or.inl h
      · exact Or.inr h
    · exact Or.inr hp
    · rcases List.mem_cons.mp hp with h | h
      · exact Or.inr (by rw [h]; exact List.mem_cons_self _ _)
      · rcases ih p h with h3 | h3
        · exact Or.inl h3
        · exact Or.inr (List.mem_cons_of_mem _ h3)

lemma mapInsert_sorted (k : Nat) (x : Int) (m : List (Nat × Int))
    (hm : SortedKeys m) : SortedKeys (mapInsert k x m) := by
  induction m with
  | nil => exact List.pairwise_singleton _ _
  | cons q t ih =>
    obtain ⟨k0, v0⟩ := q
    rw [SortedKeys, List.pairwise_cons] at hm
    obtain ⟨hlt, ht⟩ := hm
    unfold mapInsert
    by_cases h1 : k < k0
    · rw [if_pos h1]
      refine List.Pairwise.cons ?_ (List.Pairwise.cons hlt ht)
      intro p hp
      rcases hp with _ | hp
      · exact h1
      · exact Nat.lt_trans h1 (hlt p (by assumption))
    · rw [if_neg h1]
      by_cases h2 : k = k0
      · rw [if_pos h2]
        exact List.Pairwise.cons hlt ht
      · rw [if_neg h2]
        refine List.Pairwise.cons ?_ (ih ht)
        intro p hp
        rcases mapInsert_mem k x t p hp with h3 | h3
        · rw [h3]
          omega
        · exact hlt p h3

lemma dataLookup_mapInsert_ne (j k : Nat) (x : Int) (m : List (Nat × Int))
    (hjk : j ≠ k) : dataLookup j (mapInsert k x m) = dataLookup j m := by
  induction m with
  | nil => simp [mapInsert, dataLookup, hjk]
  | cons q t ih =>
    obtain ⟨k0, v0⟩ := q
    unfold mapInsert
    split_ifs with h1 h2
    · simp [dataLookup, hjk]
    · rfl
    · by_cases h3 : j = k0
      · simp [dataLookup, h3]
      · simp [dataLookup, h3, ih]

/-- Keys smaller than every key of a sorted map are absent. -/
lemma dataLookup_none_of_lt (k : Nat) (m : List (Nat × Int))
    (h : ∀ p ∈ m, k < p.1) : dataLookup k m = none := by
  induction m with
  | nil => rfl
  | cons q t ih =>
    unfold dataLookup
    rw [if_neg ?_]
    · exact ih fun p hp => h p (List.mem_cons_of_mem _ hp)
    · intro heq
      exact absurd (h q (List.mem_cons_self _ _)) (by omega)

lemma dataLookup_mapInsert_self (k : Nat) (x : Int) (m : List (Nat × Int))
    (hm : SortedKeys m) :
    dataLookup k (mapInsert k x m) = some ((dataLookup k m).getD x) := by
  induction m with
  | nil => simp [mapInsert, dataLookup]
  | cons q t ih =>
    obtain ⟨k0, v0⟩ := q
    rw [SortedKeys, List.pairwise_cons] at hm
    obtain ⟨hlt, ht⟩ := hm
    unfold mapInsert
    by_cases h1 : k < k0
    · rw [if_pos h1]
      unfold dataLookup
      rw [if_pos rfl, if_neg (by omega),
        dataLookup_none_of_lt k t (fun p hp => Nat.lt_trans h1 (hlt p hp))]
      rfl
    · rw [if_neg h1]
      by_cases h2 : k = k0
      · rw [if_pos h2]
        simp [dataLookup, h2]
      · rw [if_neg h2]
        simp only [dataLookup, if_neg h2]
        exact ih ht

lemma dataInsertAll_sorted (cd : List Nat) (m : List (Nat × Int))
    (hm : SortedKeys m) : SortedKeys (dataInsertAll cd m) := by
  induction cd generalizing m with
  | nil => exact hm
  | cons i t ih => exact ih _ (mapInsert_sorted i 0 m hm)

/-- Existing entries survive the whole insertion loop unchanged. -/
lemma dataInsertAll_keeps (cd : List Nat) (m : List (Nat × Int))
    (hm : SortedKeys m) (k : Nat) (v : Int) (hk : dataLookup k m = some v) :
    dataLookup k (dataInsertAll cd m) = some v := by
  induction cd generalizing m with
  | nil => exact hk
  | cons i t ih =>
    refine ih (mapInsert i 0 m) (mapInsert_sorted i 0 m hm) ?_
    by_cases h : k = i
    · subst h
      rw [dataLookup_mapInsert_self k 0 m hm, hk]
      rfl
    · rw [dataLookup_mapInsert_ne k i 0 m h]
      exact hk

/-- A key that was absent before the loop and occurs in `coupling_dofs` ends
up present with value `0`. -/
lemma dataInsertAll_new (cd : List Nat) (m : List (Nat × Int))
    (hm : SortedKeys m) (k : Nat) (hk : k ∈ cd) (habs : dataLookup k m = none) :
    dataLookup k (dataInsertAll cd m) = some 0 := by
  induction cd generalizing m with
  | nil => cases hk
  | cons i t ih =>
    rcases List.mem_cons.mp hk with h | h
    · subst h
      have hself : dataLookup k (mapInsert k 0 m) = some 0 := by
        rw [dataLookup_mapInsert_self k 0 m hm, habs]
        rfl
      exact dataInsertAll_keeps t _ (mapInsert_sorted k 0 m hm) k 0 hself
    · by_cases hik : k = i
      · subst hik
        have hself : dataLookup k (mapInsert k 0 m) = some 0 := by
          rw [dataLookup_mapInsert_self k 0 m hm, habs]
          rfl
        exact dataInsertAll_keeps t _ (mapInsert_sorted k 0 m hm) k 0 hself
      · refine ih (mapInsert i 0 m) (mapInsert_sorted i 0 m hm) h ?_
        rw [dataLookup_mapInsert_ne k i 0 m hik]
        exact habs

/-- The update loop touches only mapped values: the key list is preserved. -/
lemma dataUpdateLoop_keys (m : List (Nat × Int)) (rd : List Int) (n : Nat) :
    (dataUpdateLoop m rd n).map Prod.fst = m.map Prod.fst := by
  induction m generalizing rd n with
  | nil => cases n <;> rfl
  | cons q t ih =>
    cases n with
    | zero => rfl
    | succ n =>
      obtain ⟨k, v⟩ := q
      simp only [dataUpdateLoop, List.map_cons, ih]

/-- C9: after the insertion loop of `Adapter::initialize`, every element of
`coupling_dofs` is a key of `data` (fresh keys get value `0`, existing
entries keep their value), and the read-back loop of `Adapter::advance`
preserves the key set of `data`: it only rewrites mapped values of the first
`n_interface_nodes` entries and never inserts or removes a key. -/
theorem c9_data_map_keys (cd : List Nat) (m : List (Nat × Int))
    (hm : SortedKeys m) :
    (∀ i ∈ cd, (dataLookup i (dataInsertAll cd m)).isSome) ∧
    (∀ i ∈ cd, dataLookup i m = none → dataLookup i (dataInsertAll cd m) = some 0) ∧
    (∀ k v, dataLookup k m = some v → dataLookup k (dataInsertAll cd m) = some v) ∧
    (∀ (data : List (Nat × Int)) (rd : List Int) (n : Nat),
      (dataUpdateLoop data rd n).map Prod.fst = data.map Prod.fst) := by
  refine ⟨?_, ?_, ?_, ?_⟩
  · intro i hi
    cases habs : dataLookup i m with
    | none => rw [dataInsertAll_new cd m hm i hi habs]; rfl
    | some v => rw [dataInsertAll_keeps cd m hm i v habs]; rfl
  · exact fun i hi habs => dataInsertAll_new cd m hm i hi habs
  · exact fun k v hk => dataInsertAll_keeps cd m hm k v hk
  · exact fun data rd n => dataUpdateLoop_keys data rd n

/-- Witness for C9 at `coupling_dofs = [2, 5]` over an existing map
`[(3, 7)]`: key 2 is fresh with value 0, key 3 keeps 7, and an update loop
preserves the keys. -/
theorem c9_data_map_keys_witness :
    dataLookup 2 (dataInsertAll [2, 5] [(3, 7)]) = some 0 ∧
    dataLookup 3 (dataInsertAll [2, 5] [(3, 7)]) = some 7 ∧
    (dataUpdateLoop [(2, 0), (3, 7), (5, 0)] [10, 20] 2).map Prod.fst = [2, 3, 5] := by
  have h := c9_data_map_keys [2, 5] [(3, 7)] (by simp [SortedKeys])
  refine ⟨h.2.1 2 (by decide) (by decide), h.2.2.1 3 7 (by decide), ?_⟩
  rw [h.2.2.2 [(2, 0), (3, 7), (5, 0)] [10, 20] 2]
  decide

/-! ## The driver's call sequence

`LaplaceProblem::run` (source lines 675-693) is a straight-line sequence
followed by a while loop guarded by `adapter.precice.isCouplingOngoing()`.
The guard is answered by the external coupling library; the loop is modelled
by the number `k` of times the guard comes back true. -/

/-- The calls `LaplaceProblem::run` makes, in program order.  `adapter_init`
is the call `adapter.initialize(...)`. -/
inductive Event
  | make_grid
  | setup_system
  | adapter_init
  | assemble_system
  | solve
  | output_results
  | adapter_advance
deriving DecidableEq

/-- One iteration of the coupling while loop (source lines 685-692), in
source order: assemble, solve, write output, exchange via `adapter.advance`. -/
def loop_body : List Event :=
  [Event.assemble_system, Event.solve, Event.output_results, Event.adapter_advance]

/-- The while loop: `k` iterations in which `isCouplingOngoing()` was true. -/
def coupling_loop : Nat → List Event
  | 0 => []
  | k + 1 => loop_body ++ coupling_loop k

/-- The complete call trace of `LaplaceProblem::run`: `make_grid`,
`setup_system`, `adapter.initialize`, then the coupling loop; nothing after
the loop. -/
def run_trace (k : Nat) : List Event :=
  [Event.make_grid, Event.setup_system, Event.adapter_init] ++ coupling_loop k

lemma coupling_loop_eq_join (k : Nat) :
    coupling_loop k = (List.replicate k loop_body).flatten := by
  induction k with
  | zero => rfl
  | succ k ih => rw [coupling_loop, ih, List.replicate_succ, List.flatten_cons]

lemma coupling_loop_count (e : Event) (k : Nat) :
    (coupling_loop k).count e = k * (loop_body.count e) := by
  induction k with
  | zero => simp [coupling_loop]
  | succ k ih =>
    rw [coupling_loop, List.count_append, ih]
    ring

/-- C3: `run` builds the mesh and sets up the system once, initializes the
adapter once, and each of the `k` loop iterations assembles, solves, writes
output and exchanges data via `adapter.advance`, in that order; the trace is
exactly the three set-up calls followed by `k` copies of the loop body, so
after the loop no further assembly, solve, or exchange occurs. -/
theorem c3_run_call_sequence (k : Nat) :
    run_trace k =
      [Event.make_grid, Event.setup_system, Event.adapter_init] ++
        (List.replicate k loop_body).flatten ∧
    (run_trace k).count Event.make_grid = 1 ∧
    (run_trace k).count Event.setup_system = 1 ∧
    (run_trace k).count Event.adapter_init = 1 ∧
    (run_trace k).count Event.assemble_system = k ∧
    (run_trace k).count Event.solve = k ∧
    (run_trace k).count Event.adapter_advance = k := by
  refine ⟨by rw [run_trace, coupling_loop_eq_join], ?_, ?_, ?_, ?_, ?_, ?_⟩ <;>
    simp [run_trace, List.count_append, coupling_loop_count, loop_body,
      List.count_cons, List.count_nil]

/-- `output_results` (source lines 658-671) writes a single `.vtk` file whose
name depends only on the space dimension. -/
def output_filename (dim : Nat) : String :=
  if dim = 2 then "solution-2d.vtk" else "solution-3d.vtk"

/-- `main` instantiates `LaplaceProblem<2>` (source line 702). -/
def mainDim : Nat := 2

/-- The file each modelled call writes, if any: of all the operations `run`
invokes, only `output_results` opens an output file (the one `std::ofstream`
of the source); everything else writes to `std::cout` only. -/
def writes_file (dim : Nat) : Event → Option String
  | Event.output_results => some (output_filename dim)
  | _ => none

lemma coupling_loop_files (dim : Nat) (k : Nat) :
    (coupling_loop k).filterMap (writes_file dim) =
      List.replicate k (output_filename dim) := by
  induction k with
  | zero => rfl
  | succ k ih =>
    rw [coupling_loop, List.filterMap_append, ih, List.replicate_succ]
    rfl

/-- C5: the program's only file output is the visualization file:
`output_results` writes to `"solution-2d.vtk"` when `dim = 2` (the dimension
`main` instantiates) and to `"solution-3d.vtk"` otherwise, it is called once
per iteration of the coupling loop, and the files written by the whole run
trace are exactly the `k` copies of that one name. -/
theorem c5_output_file (k : Nat) :
    output_filename mainDim = "solution-2d.vtk" ∧
    (∀ d, d ≠ 2 → output_filename d = "solution-3d.vtk") ∧
    (run_trace k).count Event.output_results = k ∧
    (run_trace k).filterMap (writes_file mainDim) =
      List.replicate k "solution-2d.vtk" := by
  refine ⟨rfl, fun d hd => by simp [output_filename, hd], ?_, ?_⟩
  · simp [run_trace, List.count_append, coupling_loop_count, loop_body,
      List.count_cons, List.count_nil]
  · rw [run_trace, List.filterMap_append, coupling_loop_files]
    rfl

/-- Witness for C5 at `dim = 3` and `k = 2`. -/
theorem c5_output_file_witness :
    output_filename 3 = "solution-3d.vtk" ∧
    (run_trace 2).filterMap (writes_file mainDim) =
      ["solution-2d.vtk", "solution-2d.vtk"] := by
  have h := c5_output_file 2
  exact ⟨h.2.1 3 (by decide), h.2.2.2⟩

/-! ## The grid built by `make_grid`

`make_grid` (source lines 525-546) calls
`GridGenerator::hyper_cube(triangulation, -1, 1)` followed by
`refine_global(4)`; in 2D this yields a `2^4 × 2^4` grid of congruent square
cells on `[-1, 1]^2` with all boundary ids `0` (`hyper_cube` without
colorization).  The subsequent loop sets the boundary id of every face that is
at the boundary and has face-center x-coordinate exactly `1` to
`interface_boundary_id`.  All coordinates are dyadic rationals, represented
exactly by `double`, so exact rational arithmetic models the `== 1`
comparison faithfully. -/

/-- The interval passed to `GridGenerator::hyper_cube` (each coordinate
direction of the square domain). -/
structure HyperCube where
  left : ℚ
  right : ℚ
deriving DecidableEq

/-- `GridGenerator::hyper_cube(triangulation, -1, 1)` (source line 529). -/
def make_grid_cube : HyperCube := { left := -1, right := 1 }

/-- `triangulation.refine_global(4)` (source line 530). -/
def n_global_refinements : Nat := 4

/-- Cells per coordinate direction after refinement. -/
def nCellsPerDir : Nat := 2 ^ n_global_refinements

/-- Following the spec's words, for comparison with the source: the unit
square is the square `[0, 1]^2`. -/
def isUnitSquare (c : HyperCube) : Prop := c.left = 0 ∧ c.right = 1

/-- The `i`-th grid line coordinate, `i ∈ [0, nCellsPerDir]`. -/
def vertexCoord (i : Nat) : ℚ :=
  make_grid_cube.left +
    i * (make_grid_cube.right - make_grid_cube.left) / (nCellsPerDir : ℚ)

/-- C2 counterexample: the claim says the triangulation covers a unit square,
but `make_grid` builds `hyper_cube(-1, 1)`: the square `[-1, 1]^2`, of side
length 2 — under neither reading (the square `[0, 1]^2`, or any square of
side 1) is it a unit square. -/
theorem c2_unit_square_counterexample :
    make_grid_cube.left = -1 ∧ make_grid_cube.right = 1 ∧
    ¬ isUnitSquare make_grid_cube ∧
    make_grid_cube.right - make_grid_cube.left ≠ 1 := by
  refine ⟨rfl, rfl, ?_, by norm_num [make_grid_cube]⟩
  intro h
  have := h.1
  norm_num [make_grid_cube] at this

/-- C2 amended: the program solves one fixed 2D Laplace problem on the square
`[-1, 1]^2` of side length 2: `main` instantiates `LaplaceProblem<2>` only,
and the triangulation built by `make_grid` is `hyper_cube(-1, 1)` refined
globally 4 times. -/
theorem c2_fixed_2d_problem_domain :
    mainDim = 2 ∧ make_grid_cube = { left := -1, right := 1 } ∧
    make_grid_cube.right - make_grid_cube.left = 2 ∧
    n_global_refinements = 4 := by
  refine ⟨rfl, rfl, by norm_num [make_grid_cube], rfl⟩

/-- The four faces of a 2D cell, in deal.II order. -/
inductive FaceDir
  | left
  | right
  | bottom
  | top
deriving DecidableEq

/-- x-coordinate of the center of face `d` of cell `(i, j)` (the cell spans
`[vertexCoord i, vertexCoord (i+1)]` in x); a face center is the average of
the face's two vertices, which is exact in double precision here. -/
def face_center_x (i : Nat) : FaceDir → ℚ
  | FaceDir.left => vertexCoord i
  | FaceDir.right => vertexCoord (i + 1)
  | FaceDir.bottom => (vertexCoord i + vertexCoord (i + 1)) / 2
  | FaceDir.top => (vertexCoord i + vertexCoord (i + 1)) / 2

/-- `face->at_boundary()` for face `d` of cell `(i, j)` of the
`nCellsPerDir × nCellsPerDir` grid. -/
def face_at_boundary (i j : Nat) : FaceDir → Bool
  | FaceDir.left => i == 0
  | FaceDir.right => i + 1 == nCellsPerDir
  | FaceDir.bottom => j == 0
  | FaceDir.top => j + 1 == nCellsPerDir

/-- `interface_boundary_id`, set to `1` in the `LaplaceProblem` constructor
(source line 520). -/
def interface_boundary_id : Nat := 1

/-- The boundary id of face `d` of cell `(i, j)` after `make_grid`:
`hyper_cube` leaves every id `0`, and the loop assigns
`interface_boundary_id` exactly when `face->at_boundary()` holds and the face
center's x-coordinate equals `1` (source lines 532-540). -/
def make_grid_face_id (i j : Nat) (d : FaceDir) : Nat :=
  if face_at_boundary i j d = true ∧ face_center_x i d = 1 then
    interface_boundary_id
  else 0

lemma vertexCoord_eq_one_iff (k : Nat) : vertexCoord k = 1 ↔ k = 16 := by
  unfold vertexCoord make_grid_cube nCellsPerDir n_global_refinements
  norm_num
  constructor
  · intro h
    have hk : (k : ℚ) = 16 := by linarith
    exact_mod_cast hk
  · intro h
    subst h
    norm_num

lemma face_center_mid_ne_one (i : Nat) :
    (vertexCoord i + vertexCoord (i + 1)) / 2 ≠ 1 := by
  unfold vertexCoord make_grid_cube nCellsPerDir n_global_refinements
  norm_num
  intro h
  have h2 : ((2 * i : Nat) : ℚ) = ((31 : Nat) : ℚ) := by push_cast; linarith
  have := Nat.cast_inj.mp h2
  omega

/-- C10: after `make_grid`, a face carries `interface_boundary_id` (= 1) iff
it is at the boundary with face-center x-coordinate 1; concretely these are
exactly the right faces of the rightmost cell column, and every other face
(in particular every other boundary face) keeps boundary id 0. -/
theorem c10_interface_boundary_faces (i j : Nat)
    (hi : i < nCellsPerDir) (_hj : j < nCellsPerDir) (d : FaceDir) :
    (make_grid_face_id i j d = interface_boundary_id ↔
      face_at_boundary i j d = true ∧ face_center_x i d = 1) ∧
    (make_grid_face_id i j d = interface_boundary_id ↔
      d = FaceDir.right ∧ i + 1 = nCellsPerDir) ∧
    (make_grid_face_id i j d ≠ interface_boundary_id → make_grid_face_id i j d = 0) := by
  have hchar : (face_at_boundary i j d = true ∧ face_center_x i d = 1) ↔
      (d = FaceDir.right ∧ i + 1 = nCellsPerDir) := by
    cases d with
    | left =>
      simp only [face_at_boundary, face_center_x, beq_iff_eq]
      constructor
      · rintro ⟨h0, hc⟩
        subst h0
        rw [vertexCoord_eq_one_iff] at hc
        omega
      · rintro ⟨h, _⟩
        cases h
    | right =>
      simp only [face_at_boundary, face_center_x, beq_iff_eq]
      constructor
      · rintro ⟨hb, _⟩
        exact ⟨by trivial, hb⟩
      · rintro ⟨_, hb⟩
        refine ⟨hb, ?_⟩
        rw [vertexCoord_eq_one_iff]
        unfold nCellsPerDir n_global_refinements at hb
        omega
    | bottom =>
      simp only [face_at_boundary, face_center_x, beq_iff_eq]
      constructor
      · rintro ⟨_, hc⟩
        exact absurd hc (face_center_mid_ne_one i)
      · rintro ⟨h, _⟩
        cases h
    | top =>
      simp only [face_at_boundary, face_center_x, beq_iff_eq]
      constructor
      · rintro ⟨_, hc⟩
        exact absurd hc (face_center_mid_ne_one i)
      · rintro ⟨h, _⟩
        cases h
  have hbase : make_grid_face_id i j d = interface_boundary_id ↔
      face_at_boundary i j d = true ∧ face_center_x i d = 1 := by
    unfold make_grid_face_id
    split_ifs with h
    · exact ⟨fun _ => h, fun _ => rfl⟩
    · exact ⟨fun h0 => absurd h0 (by norm_num [interface_boundary_id]), fun hc => absurd hc h⟩
  refine ⟨hbase, hbase.trans hchar, ?_⟩
  intro hne
  unfold make_grid_face_id at hne ⊢
  split_ifs at hne ⊢ with h
  · exact absurd rfl hne
  · rfl

/-- Witness for C10 at the top-right cell `(15, 15)`: its right face gets the
interface id, its top face keeps id 0. -/
theorem c10_interface_boundary_faces_witness :
    make_grid_face_id 15 15 FaceDir.right = interface_boundary_id ∧
    make_grid_face_id 15 15 FaceDir.top = 0 := by
  have hr := c10_interface_boundary_faces 15 15 (by norm_num [nCellsPerDir, n_global_refinements])
    (by norm_num [nCellsPerDir, n_global_refinements]) FaceDir.right
  have ht := c10_interface_boundary_faces 15 15 (by norm_num [nCellsPerDir, n_global_refinements])
    (by norm_num [nCellsPerDir, n_global_refinements]) FaceDir.top
  refine ⟨hr.2.1.mpr ⟨rfl, by norm_num [nCellsPerDir, n_global_refinements]⟩, ?_⟩
  refine ht.2.2 ?_
  intro habs
  have := ht.2.1.mp habs
  exact absurd this.1 (by intro h; cases h)

/-! ## The repository's own assertions

The repository raises no errors of its own.  Its only checks are debug
assertions: `Assert(dim > 1)` and `Assert(dim == precice.getDimensions())` in
`Adapter::initialize` (source lines 221-222), and
`AssertIndexRange(i, write_data.size())` / `AssertIndexRange(i,
read_data.size())` in the format functions and read-back loops.  The checked
variants below return `none` exactly when an assertion would fire. -/

/-- The two dimension assertions at the top of `Adapter::initialize`. -/
def adapter_dim_asserts (dim precice_dim : Nat) : Prop :=
  1 < dim ∧ dim = precice_dim

/-- `format_deal_to_precice` with its `AssertIndexRange(i, write_data.size())`
made explicit: `write_len` is the size `write_data` has when the loop runs. -/
def format_deal_to_precice_checked (cd : List Nat) (n : Nat) (write_len : Nat)
    (v : Nat → Int) : Option (List Int) :=
  if ∀ i, i < n → i < write_len then some (format_deal_to_precice cd n v) else none

/-- `format_precice_to_deal` with its `AssertIndexRange(i, read_data.size())`
made explicit. -/
def format_precice_to_deal_checked (cd : List Nat) (n : Nat) (rd : List Int)
    (v : Nat → Int) : Option (Nat → Int) :=
  if ∀ i, i < n → i < rd.length then some (format_precice_to_deal cd n rd v) else none

/-- `write_data.resize(n_interface_nodes, 0)` in `Adapter::initialize`
(source line 263), applied to the initially empty container. -/
def init_sized_write_data (n : Nat) : List Int := List.replicate n 0

/-- `read_data.resize(n_interface_nodes, 0)` in `Adapter::initialize`
(source line 264), applied to the initially empty container. -/
def init_sized_read_data (n : Nat) : List Int := List.replicate n 0

/-- C6: the repository's own assertions never fire under the program's fixed
configuration: `main` instantiates `dim = 2 > 1`, the coupling dimension
matches, and after `Adapter::initialize` sizes both containers to
`n_interface_nodes` every index-range assertion in the format functions
holds, so the checked variants always succeed and return the unchecked
results. -/
theorem c6_assertions_never_fire (precice_dim : Nat) (hpd : precice_dim = 2)
    (n : Nat) (cd : List Nat) (v w : Nat → Int) :
    adapter_dim_asserts mainDim precice_dim ∧
    format_deal_to_precice_checked cd n (init_sized_write_data n).length v =
      some (format_deal_to_precice cd n v) ∧
    format_precice_to_deal_checked cd n (init_sized_read_data n) w =
      some (format_precice_to_deal cd n (init_sized_read_data n) w) := by
  subst hpd
  refine ⟨⟨by norm_num [mainDim], rfl⟩, ?_, ?_⟩
  · unfold format_deal_to_precice_checked
    rw [if_pos]
    intro i hi
    simpa [init_sized_write_data] using hi
  · unfold format_precice_to_deal_checked
    rw [if_pos]
    intro i hi
    simpa [init_sized_read_data] using hi

/-- Witness for C6 at `precice_dim = 2`, `n = 1`, `coupling_dofs = [5]`. -/
theorem c6_assertions_never_fire_witness :
    format_deal_to_precice_checked [5] 1 (init_sized_write_data 1).length (fun _ => 3) =
      some [3] := by
  have h := c6_assertions_never_fire 2 rfl 1 [5] (fun _ => 3) (fun _ => 0)
  rw [h.2.1]
  rfl

end CoupledLaplace
